import Mathlib

/-!
Formal model of the validation and calculation helper layer of a personal
finance tracker, embedded from src/lib/helpers.py.

Modelling conventions:
* Python strings are modelled as lists of characters (List Char).
* Python floats are modelled as exact rationals; loan years, fund months,
  compounding frequency and compounding time are modelled as integers
  (fractional compounding periods would require real-number powers).
* Functions that report failure through a (flag, payload) pair are
  modelled as Bool × (value ⊕ message), the left summand carrying the
  normalized value and the right summand the error message.
* Case mapping (str.lower / str.title) is modelled per character with the
  ASCII case maps Char.toLower / Char.toUpper; str.strip strips the ASCII
  whitespace characters.
* Python round(x, 2) is modelled as round-half-to-even of 100 * x.
-/

namespace FinanceHelpers

/-! ### Character classes and Python string primitives -/
/-- Whitespace in the sense of str.strip and the regex class backslash-s,
restricted to the ASCII range. -/
def isPySpace (c : Char) : Bool :=
  decide (c.toNat = 32 ∨ c.toNat = 9 ∨ c.toNat = 10 ∨ c.toNat = 13 ∨
    c.toNat = 11 ∨ c.toNat = 12)

/-- Model of str.strip: remove leading and trailing whitespace. -/
def pyStrip (s : List Char) : List Char :=
  List.rdropWhile isPySpace (List.dropWhile isPySpace s)

/-- Model of str.lower, per-character ASCII case mapping. -/
def pyLower (s : List Char) : List Char :=
  s.map Char.toLower

/-- ASCII letter, the characters treated as cased by str.title. -/
def isAsciiLetter (c : Char) : Bool :=
  decide ((65 ≤ c.toNat ∧ c.toNat ≤ 90) ∨ (97 ≤ c.toNat ∧ c.toNat ≤ 122))

/-- Is a character cased in the sense of str.title.  The table is kept to
ASCII letters plus the sharp s U+00DF, the character this development
tracks exactly to witness the multi-character title mappings of the
Unicode SpecialCasing table; other non-ASCII characters are treated as
uncased identity. -/
def isCased (c : Char) : Bool :=
  isAsciiLetter c || decide (c.toNat = 223)

/-- Title-case mapping of a single character, as a string: the sharp s
expands to the two characters Ss, as str.title maps it; ASCII letters map
to upper case; anything else is unchanged. -/
def titleMapChar (c : Char) : List Char :=
  if c.toNat = 223 then ['S', 's'] else [Char.toUpper c]

/-- Lower-case mapping of a single character, as a string (the sharp s
lower-cases to itself). -/
def lowerMapChar (c : Char) : List Char :=
  [Char.toLower c]

/-- Model of str.title: a character following a cased character is
lower-cased, any other character is title-cased, and the cased state is
read off the input character, as in the CPython implementation. -/
def pyTitleGo : Bool → List Char → List Char
  | _, [] => []
  | false, c :: cs => titleMapChar c ++ pyTitleGo (isCased c) cs
  | true, c :: cs => lowerMapChar c ++ pyTitleGo (isCased c) cs

/-- Model of str.title. -/
def pyTitle (s : List Char) : List Char :=
  pyTitleGo false s

/-- ASCII digit. -/
def isDigitChar (c : Char) : Bool :=
  decide (48 ≤ c.toNat ∧ c.toNat ≤ 57)

/-- Value of a list of decimal digit characters. -/
def natOfDigits (l : List Char) : ℕ :=
  l.foldl (fun a c => a * 10 + (c.toNat - 48)) 0

/-! ### Rounding -/
/-- Round-half-to-even of a rational to an integer. -/
def roundHalfEven (q : ℚ) : ℤ :=
  if q - ⌊q⌋ < 1 / 2 then ⌊q⌋
  else if q - ⌊q⌋ > 1 / 2 then ⌊q⌋ + 1
  else if ⌊q⌋ % 2 = 0 then ⌊q⌋ else ⌊q⌋ + 1

/-- Model of Python round(x, 2). -/
def roundTo2 (q : ℚ) : ℚ :=
  (roundHalfEven (q * 100) : ℚ) / 100

/-! ### Calculators (src/lib/helpers.py) -/
/-- Embedding of calculate_compound_interest.  The time parameter is an
integer number of time units. -/
def calculate_compound_interest (principal rate : ℚ) (time : ℤ)
    (compound_frequency : ℤ) : ℚ :=
  if principal ≤ 0 ∨ rate < 0 ∨ time < 0 then 0
  else roundTo2 (principal *
    (1 + rate / (compound_frequency : ℚ)) ^ (compound_frequency * time))

/-- Embedding of calculate_monthly_payment. -/
def calculate_monthly_payment (principal annual_rate : ℚ) (years : ℤ) : ℚ :=
  if principal ≤ 0 ∨ annual_rate < 0 ∨ years ≤ 0 then 0
  else if annual_rate / 12 = 0 then principal / ((years * 12 : ℤ) : ℚ)
  else roundTo2 (principal *
      (annual_rate / 12 * (1 + annual_rate / 12) ^ (years * 12)) /
      ((1 + annual_rate / 12) ^ (years * 12) - 1))

/-- Embedding of get_budget_status. -/
def get_budget_status (spent limit : ℚ) : String × String :=
  if limit ≤ 0 then ("No limit", "gray")
  else if spent / limit * 100 ≤ 50 then ("Good", "green")
  else if spent / limit * 100 ≤ 75 then ("Warning", "yellow")
  else if spent / limit * 100 ≤ 100 then ("High", "orange")
  else ("Over", "red")

/-- Embedding of calculate_emergency_fund_target. -/
def calculate_emergency_fund_target (monthly_expenses : ℚ) (months : ℤ) : ℚ :=
  if monthly_expenses ≤ 0 ∨ months ≤ 0 then 0
  else monthly_expenses * (months : ℚ)

/-- Python ternary num / den * 100 if den greater than 0 else 0, used for the
three ratios inside get_financial_health_score. -/
def pyRatio (num den : ℚ) : ℚ :=
  if den > 0 then num / den * 100 else 0

/-- Expense deduction chain of get_financial_health_score. -/
def healthDeduct1 (score : ℤ) (expense_ratio : ℚ) : ℤ :=
  if expense_ratio > 80 then score - 30
  else if expense_ratio > 60 then score - 20
  else if expense_ratio > 50 then score - 10
  else score

/-- Debt deduction chain of get_financial_health_score. -/
def healthDeduct2 (score : ℤ) (debt_ratio : ℚ) : ℤ :=
  if debt_ratio > 40 then score - 25
  else if debt_ratio > 20 then score - 15
  else if debt_ratio > 10 then score - 5
  else score

/-- Savings bonus chain of get_financial_health_score. -/
def healthBonus (score : ℤ) (savings_rate : ℚ) : ℤ :=
  if savings_rate ≥ 20 then score + 10
  else if savings_rate ≥ 10 then score + 5
  else score

/-- Score-to-description mapping of get_financial_health_score. -/
def healthLabel (score : ℤ) : String :=
  if score ≥ 80 then "Excellent"
  else if score ≥ 60 then "Good"
  else if score ≥ 40 then "Fair"
  else if score ≥ 20 then "Poor"
  else "Critical"

/-- Clamped score computed by get_financial_health_score. -/
def healthScoreValue (income expenses savings debt : ℚ) : ℤ :=
  max 0 (min 100
    (healthBonus
      (healthDeduct2 (healthDeduct1 100 (pyRatio expenses income))
        (pyRatio debt income))
      (pyRatio savings income)))

/-- Embedding of get_financial_health_score. -/
def get_financial_health_score (income expenses savings debt : ℚ) :
    ℤ × String :=
  if income ≤ 0 then (0, "No income data")
  else (healthScoreValue income expenses savings debt,
    healthLabel (healthScoreValue income expenses savings debt))

/-! ### Specification-side definitions for the health score (C1) -/
/-- Deduction for the expense-to-income percentage, following the words of
the specification: 30, 20 or 10 points when it exceeds 80, 60 or 50,
testing the highest band first. -/
def expenseDeduction (r : ℚ) : ℤ :=
  if r > 80 then 30 else if r > 60 then 20 else if r > 50 then 10 else 0

/-- Deduction for the debt-to-income percentage per the specification. -/
def debtDeduction (r : ℚ) : ℤ :=
  if r > 40 then 25 else if r > 20 then 15 else if r > 10 then 5 else 0

/-- Bonus for the savings-to-income percentage per the specification. -/
def savingsBonus (r : ℚ) : ℤ :=
  if r ≥ 20 then 10 else if r ≥ 10 then 5 else 0

/-- Health score as worded by the specification: start at 100, subtract the
two deductions, add the bonus, clamp to the interval from 0 to 100, and
label the result; income not positive short-circuits. -/
def healthScoreSpec (income expenses savings debt : ℚ) : ℤ × String :=
  if income ≤ 0 then (0, "No income data")
  else
    let score := max 0 (min 100
      (100 - expenseDeduction (expenses / income * 100)
        - debtDeduction (debt / income * 100)
        + savingsBonus (savings / income * 100)))
    (score, healthLabel score)

/-! ### Amount validation (validate_amount, C4) -/
/-- Characters removed by the currency regex of validate_amount: dollar
sign, comma, euro sign, pound sign. -/
def isCurrencyChar (c : Char) : Bool :=
  decide (c.toNat = 36 ∨ c.toNat = 44 ∨ c.toNat = 8364 ∨ c.toNat = 163)

/-- The string handed to the float constructor by validate_amount: the
stripped input with currency symbols and commas removed. -/
def cleanAmount (s : List Char) : List Char :=
  (pyStrip s).filter (fun c => !isCurrencyChar c)

/-- Syntactic decomposition of a decimal numeral as accepted by the Python
float constructor (ordinary decimal forms: optional sign, digits with an
optional decimal point, optional signed exponent; surrounding whitespace
allowed).  Returns the signed mantissa, the count of fractional digits and
the signed exponent. -/
def parseFloatParts (s0 : List Char) : Option (ℤ × ℕ × ℤ) :=
  let s1 := pyStrip s0
  let sgn : ℤ := match s1 with
    | '-' :: _ => -1
    | _ => 1
  let s2 : List Char := match s1 with
    | '+' :: t => t
    | '-' :: t => t
    | t => t
  let intPart := s2.takeWhile isDigitChar
  let s3 := s2.dropWhile isDigitChar
  let fracPart : List Char := match s3 with
    | '.' :: t => t.takeWhile isDigitChar
    | _ => []
  let s4 : List Char := match s3 with
    | '.' :: t => t.dropWhile isDigitChar
    | t => t
  if intPart.isEmpty && fracPart.isEmpty then none
  else
    match s4 with
    | [] => some (sgn * (natOfDigits (intPart ++ fracPart) : ℤ),
        fracPart.length, 0)
    | e :: t =>
      if e = 'e' ∨ e = 'E' then
        let esgn : ℤ := match t with
          | '-' :: _ => -1
          | _ => 1
        let t2 : List Char := match t with
          | '+' :: u => u
          | '-' :: u => u
          | u => u
        let expDigits := t2.takeWhile isDigitChar
        let t3 := t2.dropWhile isDigitChar
        if expDigits.isEmpty ∨ t3 ≠ [] then none
        else some (sgn * (natOfDigits (intPart ++ fracPart) : ℤ),
          fracPart.length, esgn * (natOfDigits expDigits : ℤ))
      else none

/-- Numeric value of a parsed decimal numeral, as a rational. -/
def parseFloat (s : List Char) : Option ℚ :=
  (parseFloatParts s).map
    (fun x => (x.1 : ℚ) / 10 ^ x.2.1 * 10 ^ x.2.2)

/-- Embedding of validate_amount. -/
def validate_amount (s : List Char) : Bool × (ℚ ⊕ List Char) :=
  match parseFloat (cleanAmount s) with
  | none =>
    (false, Sum.inr "Invalid amount format. Please enter a valid number.".data)
  | some a =>
    if a < 0 then (false, Sum.inr "Amount cannot be negative".data)
    else if a > 1000000000 then (false, Sum.inr "Amount is too large".data)
    else (true, Sum.inl a)

/-! ### Category emoji (get_transaction_category_emoji, C9) -/
/-- Does the second list start with the first. -/
def listStartsWith : List Char → List Char → Bool
  | [], _ => true
  | _ :: _, [] => false
  | a :: as, b :: bs => a == b && listStartsWith as bs

/-- Contiguous substring test, the Python in operator on strings. -/
def isSubstrOf (needle : List Char) : List Char → Bool
  | [] => needle.isEmpty
  | c :: rest => listStartsWith needle (c :: rest) || isSubstrOf needle rest

/-- The ordered keyword-to-icon table of get_transaction_category_emoji,
in source order. -/
def emojiTable : List (List Char × List Char) :=
  [("food".data, "🍔".data), ("groceries".data, "🛒".data),
   ("transport".data, "🚗".data), ("gas".data, "⛽".data),
   ("rent".data, "🏠".data), ("utilities".data, "💡".data),
   ("entertainment".data, "🎬".data), ("shopping".data, "🛍️".data),
   ("health".data, "🏥".data), ("education".data, "📚".data),
   ("salary".data, "💰".data), ("bonus".data, "🎉".data),
   ("investment".data, "📈".data), ("savings".data, "🏦".data),
   ("insurance".data, "🛡️".data), ("travel".data, "✈️".data),
   ("gym".data, "💪".data), ("subscription".data, "📺".data),
   ("coffee".data, "☕".data), ("restaurant".data, "🍽️".data)]

/-- The for-loop of get_transaction_category_emoji: first matching keyword
wins, default icon when none matches. -/
def emojiLoop : List (List Char × List Char) → List Char → List Char
  | [], _ => "📋".data
  | (k, e) :: rest, cl => if isSubstrOf k cl then e else emojiLoop rest cl

/-- Embedding of get_transaction_category_emoji. -/
def get_transaction_category_emoji (category : List Char) : List Char :=
  emojiLoop emojiTable (pyLower category)

/-! ### Date validation (validate_date, C2)

The strptime call is modelled closely: the %Y directive matches exactly
four digits; %m matches the regex alternation 1[0-2], 0[1-9], [1-9] and %d
the alternation 3[01], [12] digit, 0[1-9], [1-9], two-digit branches
first; the whole string must be consumed; the date constructor then
rejects a day beyond the length of the month.  Candidate lists in
alternation order reproduce the regex backtracking. -/
structure PyDate where
  year : ℕ
  month : ℕ
  day : ℕ
  deriving DecidableEq, Repr

/-- Gregorian leap year, as in the datetime module. -/
def isLeapYear (y : ℕ) : Bool :=
  decide ((y % 4 = 0 ∧ y % 100 ≠ 0) ∨ y % 400 = 0)

/-- Number of days in a month, as in the datetime module. -/
def daysInMonth (y m : ℕ) : ℕ :=
  if m = 2 then (if isLeapYear y then 29 else 28)
  else if m = 4 ∨ m = 6 ∨ m = 9 ∨ m = 11 then 30
  else 31

/-- The date constructor: valid year, month and day give a date, anything
else raises (modelled as none). -/
def mkDate (y m d : ℕ) : Option PyDate :=
  if 1 ≤ y ∧ y ≤ 9999 ∧ 1 ≤ m ∧ m ≤ 12 ∧ 1 ≤ d ∧ d ≤ daysInMonth y m then
    some ⟨y, m, d⟩
  else none

/-- Decimal value of a digit character. -/
def digitVal (c : Char) : ℕ := c.toNat - 48

/-- Ways the %m directive can match a prefix, in regex alternation order:
the two-digit branches 1[0-2] and 0[1-9] first, then the one-digit branch
[1-9]. -/
def monthCands : List Char → List (ℕ × List Char)
  | c1 :: c2 :: rest =>
    (if (c1 = '1' ∧ (c2 = '0' ∨ c2 = '1' ∨ c2 = '2')) ∨
        (c1 = '0' ∧ 49 ≤ c2.toNat ∧ c2.toNat ≤ 57) then
      [(digitVal c1 * 10 + digitVal c2, rest)] else []) ++
    (if 49 ≤ c1.toNat ∧ c1.toNat ≤ 57 then [(digitVal c1, c2 :: rest)]
      else [])
  | [c1] =>
    if 49 ≤ c1.toNat ∧ c1.toNat ≤ 57 then [(digitVal c1, [])] else []
  | [] => []

/-- Ways the %d directive can match a prefix, in regex alternation order:
the two-digit branches 3[01], [12] digit and 0[1-9] first, then [1-9]. -/
def dayCands : List Char → List (ℕ × List Char)
  | c1 :: c2 :: rest =>
    (if (c1 = '3' ∧ (c2 = '0' ∨ c2 = '1')) ∨
        ((c1 = '1' ∨ c1 = '2') ∧ isDigitChar c2 = true) ∨
        (c1 = '0' ∧ 49 ≤ c2.toNat ∧ c2.toNat ≤ 57) then
      [(digitVal c1 * 10 + digitVal c2, rest)] else []) ++
    (if 49 ≤ c1.toNat ∧ c1.toNat ≤ 57 then [(digitVal c1, c2 :: rest)]
      else [])
  | [c1] =>
    if 49 ≤ c1.toNat ∧ c1.toNat ≤ 57 then [(digitVal c1, [])] else []
  | [] => []

/-- strptime with format year-month-day for a given separator: four year
digits, separator, month, separator, day, end of string. -/
def parseYMD (sep : Char) : List Char → Option PyDate
  | y1 :: y2 :: y3 :: y4 :: s :: rest =>
    if isDigitChar y1 && isDigitChar y2 && isDigitChar y3 && isDigitChar y4
        && (s == sep) then
      (monthCands rest).findSome? (fun mc =>
        match mc.2 with
        | s2 :: r2 =>
          if s2 == sep then
            (dayCands r2).findSome? (fun dc =>
              if dc.2.isEmpty then
                mkDate (natOfDigits [y1, y2, y3, y4]) mc.1 dc.1
              else none)
          else none
        | [] => none)
    else none
  | _ => none

/-- strptime with format day-month-year for a given separator: day,
separator, month, separator, four year digits, end of string. -/
def parseDMY (sep : Char) (cs : List Char) : Option PyDate :=
  (dayCands cs).findSome? (fun dc =>
    match dc.2 with
    | s :: r1 =>
      if s == sep then
        (monthCands r1).findSome? (fun mc =>
          match mc.2 with
          | s2 :: y1 :: y2 :: y3 :: y4 :: rest =>
            if (s2 == sep) && isDigitChar y1 && isDigitChar y2 &&
                isDigitChar y3 && isDigitChar y4 && rest.isEmpty then
              mkDate (natOfDigits [y1, y2, y3, y4]) mc.1 dc.1
            else none
          | _ => none)
      else none
    | [] => none)

/-- The format list of validate_date in source order. -/
def dateFormats : List (List Char → Option PyDate) :=
  [parseYMD '-', parseYMD '/', parseDMY '-', parseDMY '/']

def minDate : PyDate := ⟨1900, 1, 1⟩

def maxDate : PyDate := ⟨2100, 12, 31⟩

/-- Comparison of dates, as the datetime module compares date objects. -/
def dateLt (a b : PyDate) : Bool :=
  decide (a.year < b.year ∨ (a.year = b.year ∧ (a.month < b.month ∨
    (a.month = b.month ∧ a.day < b.day))))

/-- Range check performed inside the loop of validate_date on the first
successfully parsed date. -/
def dateRangeResult (d : PyDate) : Bool × (PyDate ⊕ List Char) :=
  if dateLt d minDate then
    (false, Sum.inr "Date is too far in the past".data)
  else if dateLt maxDate d then
    (false, Sum.inr "Date is too far in the future".data)
  else (true, Sum.inl d)

/-- The format loop of validate_date: first format that parses decides the
result, exhaustion yields the format error. -/
def validateDateLoop :
    List (List Char → Option PyDate) → List Char →
      Bool × (PyDate ⊕ List Char)
  | [], _ => (false, Sum.inr "Invalid date format. Use YYYY-MM-DD".data)
  | f :: fs, s =>
    match f s with
    | none => validateDateLoop fs s
    | some d => dateRangeResult d

/-- Embedding of validate_date. -/
def validate_date (s : List Char) : Bool × (PyDate ⊕ List Char) :=
  if s.isEmpty then (false, Sum.inr "Date cannot be empty".data)
  else validateDateLoop dateFormats s

/-! ### Remaining validators (C7, C8, C10) -/
/-- Characters allowed in the local part of the email regex. -/
def isLocalChar (c : Char) : Bool :=
  isAsciiLetter c || isDigitChar c ||
    decide (c.toNat = 46 ∨ c.toNat = 95 ∨ c.toNat = 37 ∨ c.toNat = 43 ∨
      c.toNat = 45)

/-- Characters allowed in the domain part of the email regex. -/
def isDomainChar (c : Char) : Bool :=
  isAsciiLetter c || isDigitChar c || decide (c.toNat = 46 ∨ c.toNat = 45)

/-- Match of the anchored email pattern: nonempty local part, at sign,
nonempty domain, dot, letters-only top-level domain of length at least
two.  Because the top-level part admits no dot, the pattern matches
exactly when the split at the (single) at sign and at the last dot
satisfies the character classes. -/
def emailMatch (e : List Char) : Bool :=
  match e.splitOn '@' with
  | [localPart, rest] =>
    !localPart.isEmpty && localPart.all isLocalChar &&
      (match (rest.reverse).dropWhile (fun c => !(c == '.')) with
      | dot :: revDomain =>
        (dot == '.') && !revDomain.isEmpty && revDomain.all isDomainChar &&
          decide (2 ≤ ((rest.reverse).takeWhile
            (fun c => !(c == '.'))).length) &&
          ((rest.reverse).takeWhile (fun c => !(c == '.'))).all isAsciiLetter
      | [] => false)
  | _ => false

/-- Embedding of validate_email. -/
def validate_email (s : List Char) : Bool × (List Char ⊕ List Char) :=
  if (pyStrip s).isEmpty then (false, Sum.inr "Email cannot be empty".data)
  else if 255 < (pyStrip s).length then
    (false, Sum.inr "Email is too long".data)
  else if !emailMatch (pyStrip s) then
    (false, Sum.inr "Invalid email format".data)
  else (true, Sum.inl (pyLower (pyStrip s)))

/-- The characters rejected inside categories: angle brackets and the two
quote characters. -/
def isBadCategoryChar (c : Char) : Bool :=
  decide (c.toNat = 60 ∨ c.toNat = 62 ∨ c.toNat = 34 ∨ c.toNat = 39)

/-- Embedding of validate_category. -/
def validate_category (s : List Char) : Bool × (List Char ⊕ List Char) :=
  if (pyStrip s).isEmpty then
    (false, Sum.inr "Category cannot be empty".data)
  else if 100 < (pyStrip s).length then
    (false, Sum.inr "Category name is too long (max 100 characters)".data)
  else if (pyStrip s).any isBadCategoryChar then
    (false, Sum.inr "Category contains invalid characters".data)
  else (true, Sum.inl (pyTitle (pyStrip s)))

/-- Shape check for the month regex: four digits, a dash, two digits. -/
def monthShape : List Char → Bool
  | [y1, y2, y3, y4, h, m1, m2] =>
    isDigitChar y1 && isDigitChar y2 && isDigitChar y3 && isDigitChar y4 &&
      (h == '-') && isDigitChar m1 && isDigitChar m2
  | _ => false

/-- Embedding of validate_month. -/
def validate_month (s : List Char) : Bool × (List Char ⊕ List Char) :=
  if s.isEmpty then (false, Sum.inr "Month cannot be empty".data)
  else if !monthShape s then
    (false, Sum.inr "Invalid month format. Use YYYY-MM (e.g., 2023-12)".data)
  else if natOfDigits (s.take 4) < 1900 ∨ 2100 < natOfDigits (s.take 4) then
    (false, Sum.inr "Year must be between 1900 and 2100".data)
  else if natOfDigits (s.drop 5) < 1 ∨ 12 < natOfDigits (s.drop 5) then
    (false, Sum.inr "Month must be between 01 and 12".data)
  else (true, Sum.inl s)

/-- Punctuation admitted inside names: whitespace, hyphen, apostrophe,
period. -/
def isNamePunct (c : Char) : Bool :=
  isPySpace c || decide (c.toNat = 45 ∨ c.toNat = 39 ∨ c.toNat = 46)

/-- Characters admitted inside names. -/
def isNameChar (c : Char) : Bool :=
  isAsciiLetter c || isNamePunct c

/-- Embedding of validate_name. -/
def validate_name (s : List Char) : Bool × (List Char ⊕ List Char) :=
  if (pyStrip s).isEmpty then (false, Sum.inr "Name cannot be empty".data)
  else if (pyStrip s).length < 2 then
    (false, Sum.inr "Name must be at least 2 characters long".data)
  else if 100 < (pyStrip s).length then
    (false, Sum.inr "Name is too long (max 100 characters)".data)
  else if !(pyStrip s).all isNameChar then
    (false, Sum.inr "Name contains invalid characters".data)
  else if (pyStrip s).all isNamePunct then
    (false, Sum.inr "Name must contain letters".data)
  else (true, Sum.inl (pyTitle (pyStrip s)))

/-- The characters rejected inside descriptions: angle brackets. -/
def isBadDescChar (c : Char) : Bool :=
  decide (c.toNat = 60 ∨ c.toNat = 62)

/-- Embedding of validate_description. -/
def validate_description (s : List Char) : Bool × (List Char ⊕ List Char) :=
  if (pyStrip s).isEmpty then (true, Sum.inl [])
  else if 255 < (pyStrip s).length then
    (false, Sum.inr "Description is too long (max 255 characters)".data)
  else if (pyStrip s).any isBadDescChar then
    (false, Sum.inr "Description contains invalid characters".data)
  else (true, Sum.inl (pyStrip s))

/-- Separators removed from phone numbers: whitespace, hyphen,
parentheses, plus. -/
def isPhoneSepChar (c : Char) : Bool :=
  isPySpace c ||
    decide (c.toNat = 45 ∨ c.toNat = 40 ∨ c.toNat = 41 ∨ c.toNat = 43)

/-- Embedding of validate_phone_number.  The isdigit test of Python is
false on an empty string, which the model keeps. -/
def validate_phone_number (s : List Char) : Bool × (List Char ⊕ List Char) :=
  if s.isEmpty then (true, Sum.inl [])
  else if !(!((pyStrip s).filter (fun c => !isPhoneSepChar c)).isEmpty &&
      ((pyStrip s).filter (fun c => !isPhoneSepChar c)).all isDigitChar) then
    (false,
      Sum.inr
        "Phone number should contain only digits and common separators".data)
  else if ((pyStrip s).filter (fun c => !isPhoneSepChar c)).length < 7 ∨
      15 < ((pyStrip s).filter (fun c => !isPhoneSepChar c)).length then
    (false, Sum.inr "Phone number should be between 7 and 15 digits".data)
  else (true, Sum.inl (pyStrip s))

/-- Hexadecimal digit. -/
def isHexDigitChar (c : Char) : Bool :=
  isDigitChar c ||
    decide ((65 ≤ c.toNat ∧ c.toNat ≤ 70) ∨ (97 ≤ c.toNat ∧ c.toNat ≤ 102))

/-- The stripped colour input with a leading hash added when missing. -/
def hexCandidate (s : List Char) : List Char :=
  match pyStrip s with
  | '#' :: t => '#' :: t
  | t => '#' :: t

/-- Shape check for the hex colour regex: a hash then six hex digits. -/
def hexShape : List Char → Bool
  | h :: rest => (h == '#') && decide (rest.length = 6) &&
      rest.all isHexDigitChar
  | [] => false

/-- Embedding of validate_hex_color. -/
def validate_hex_color (s : List Char) : Bool × (List Char ⊕ List Char) :=
  if s.isEmpty then (true, Sum.inl "#007bff".data)
  else if !hexShape (hexCandidate s) then
    (false, Sum.inr "Invalid color format. Use hex format like #FF0000".data)
  else (true, Sum.inl (pyLower (hexCandidate s)))

/-- Characters admitted in tags: letters, digits, hyphen, underscore. -/
def isTagChar (c : Char) : Bool :=
  isAsciiLetter c || isDigitChar c || decide (c.toNat = 45 ∨ c.toNat = 95)

/-- Embedding of parse_tag_string.  The conversion of the Python set to a
list is modelled as deduplication keeping first occurrences; the set
iteration order is unspecified in Python and no claim depends on it. -/
def parse_tag_string (s : List Char) : List (List Char) :=
  if s.isEmpty then []
  else
    (((s.splitOn ',').map (fun t => pyLower (pyStrip t))).filter
      (fun t => !t.isEmpty)).dedup.filter
      (fun t => decide (t.length ≤ 50) && !t.isEmpty && t.all isTagChar)

/-- Well-formedness of a validator result: the flag determines which
summand the payload lives in. -/
def resultWellFormed {α : Type} (r : Bool × (α ⊕ List Char)) : Prop :=
  (r.1 = true ∧ ∃ v, r.2 = Sum.inl v) ∨ (r.1 = false ∧ ∃ m, r.2 = Sum.inr m)

/-! ### Basic character lemmas -/
theorem toNat_ofNat_of_valid {n : ℕ} (h : n < 55296) :
    (Char.ofNat n).toNat = n := by
  rw [Char.ofNat, dif_pos (Or.inl h)]
  rfl

theorem char_eq_of_toNat_eq {c d : Char} (h : c.toNat = d.toNat) : c = d := by
  have h1 := Char.ofNat_toNat c
  rw [← h1, h, Char.ofNat_toNat]

theorem toLower_toNat (c : Char) :
    (Char.toLower c).toNat =
      if 65 ≤ c.toNat ∧ c.toNat ≤ 90 then c.toNat + 32 else c.toNat := by
  show (if 65 ≤ c.toNat ∧ c.toNat ≤ 90 then Char.ofNat (c.toNat + 32)
      else c).toNat = _
  by_cases h : 65 ≤ c.toNat ∧ c.toNat ≤ 90
  · rw [if_pos h, if_pos h]
    exact toNat_ofNat_of_valid (by omega)
  · rw [if_neg h, if_neg h]

theorem toUpper_toNat (c : Char) :
    (Char.toUpper c).toNat =
      if 97 ≤ c.toNat ∧ c.toNat ≤ 122 then c.toNat - 32 else c.toNat := by
  show (if 97 ≤ c.toNat ∧ c.toNat ≤ 122 then Char.ofNat (c.toNat - 32)
      else c).toNat = _
  by_cases h : 97 ≤ c.toNat ∧ c.toNat ≤ 122
  · rw [if_pos h, if_pos h]
    exact toNat_ofNat_of_valid (by omega)
  · rw [if_neg h, if_neg h]

theorem toLower_idem (c : Char) :
    Char.toLower (Char.toLower c) = Char.toLower c := by
  apply char_eq_of_toNat_eq
  rw [toLower_toNat, toLower_toNat]
  split_ifs <;> omega

theorem toUpper_idem (c : Char) :
    Char.toUpper (Char.toUpper c) = Char.toUpper c := by
  apply char_eq_of_toNat_eq
  rw [toUpper_toNat, toUpper_toNat]
  split_ifs <;> omega

theorem ascii_toUpper {c : Char} (h : c.toNat ≤ 127) :
    (Char.toUpper c).toNat ≤ 127 := by
  rw [toUpper_toNat]
  split_ifs <;> omega

theorem ascii_toLower {c : Char} (h : c.toNat ≤ 127) :
    (Char.toLower c).toNat ≤ 127 := by
  rw [toLower_toNat]
  split_ifs <;> omega

theorem titleMapChar_ascii {c : Char} (h : c.toNat ≤ 127) :
    titleMapChar c = [Char.toUpper c] := by
  unfold titleMapChar
  rw [if_neg (by omega)]

theorem isAsciiLetter_toLower (c : Char) :
    isAsciiLetter (Char.toLower c) = isAsciiLetter c := by
  unfold isAsciiLetter
  rw [decide_eq_decide, toLower_toNat]
  split_ifs <;> omega

theorem isAsciiLetter_toUpper (c : Char) :
    isAsciiLetter (Char.toUpper c) = isAsciiLetter c := by
  unfold isAsciiLetter
  rw [decide_eq_decide, toUpper_toNat]
  split_ifs <;> omega

theorem isCased_eq_isAsciiLetter {c : Char} (h : c.toNat ≤ 127) :
    isCased c = isAsciiLetter c := by
  unfold isCased
  rw [decide_eq_false (by omega), Bool.or_false]

theorem isCased_toUpper_ascii {c : Char} (h : c.toNat ≤ 127) :
    isCased (Char.toUpper c) = isCased c := by
  rw [isCased_eq_isAsciiLetter (ascii_toUpper h), isCased_eq_isAsciiLetter h,
    isAsciiLetter_toUpper]

theorem isCased_toLower_ascii {c : Char} (h : c.toNat ≤ 127) :
    isCased (Char.toLower c) = isCased c := by
  rw [isCased_eq_isAsciiLetter (ascii_toLower h), isCased_eq_isAsciiLetter h,
    isAsciiLetter_toLower]

theorem isPySpace_toLower (c : Char) :
    isPySpace (Char.toLower c) = isPySpace c := by
  unfold isPySpace
  rw [decide_eq_decide, toLower_toNat]
  split_ifs <;> omega

theorem isPySpace_toUpper (c : Char) :
    isPySpace (Char.toUpper c) = isPySpace c := by
  unfold isPySpace
  rw [decide_eq_decide, toUpper_toNat]
  split_ifs <;> omega

theorem health_core_eq (er dr sr : ℚ) :
    healthBonus (healthDeduct2 (healthDeduct1 100 er) dr) sr =
      100 - expenseDeduction er - debtDeduction dr + savingsBonus sr := by
  unfold healthBonus healthDeduct2 healthDeduct1
  unfold expenseDeduction debtDeduction savingsBonus
  split_ifs <;> omega

/-- C1: get_financial_health_score agrees with the scoring procedure stated
by the specification, and in particular returns (100, Excellent) on income
5000, expenses 2000, savings 1000, debt 0. -/
theorem health_score_correct :
    (∀ income expenses savings debt : ℚ,
      get_financial_health_score income expenses savings debt =
        healthScoreSpec income expenses savings debt) ∧
    get_financial_health_score 5000 2000 1000 0 = (100, "Excellent") := by
  constructor
  · intro income expenses savings debt
    unfold get_financial_health_score healthScoreSpec healthScoreValue
    by_cases hi : income ≤ 0
    · rw [if_pos hi, if_pos hi]
    · have hpos : income > 0 := not_le.mp hi
      rw [if_neg hi, if_neg hi]
      unfold pyRatio
      rw [if_pos hpos, if_pos hpos, if_pos hpos, health_core_eq]
  · unfold get_financial_health_score healthScoreValue pyRatio
    rw [if_neg (by norm_num)]
    norm_num [healthDeduct1, healthDeduct2, healthBonus, healthLabel]

/-- C3: budget status bands of get_budget_status, including the two
examples from the specification. -/
theorem budget_status_bands :
    (∀ spent limit : ℚ, limit ≤ 0 →
      get_budget_status spent limit = ("No limit", "gray")) ∧
    (∀ spent limit : ℚ, 0 < limit → spent / limit * 100 ≤ 50 →
      get_budget_status spent limit = ("Good", "green")) ∧
    (∀ spent limit : ℚ, 0 < limit → 50 < spent / limit * 100 →
      spent / limit * 100 ≤ 75 →
      get_budget_status spent limit = ("Warning", "yellow")) ∧
    (∀ spent limit : ℚ, 0 < limit → 75 < spent / limit * 100 →
      spent / limit * 100 ≤ 100 →
      get_budget_status spent limit = ("High", "orange")) ∧
    (∀ spent limit : ℚ, 0 < limit → 100 < spent / limit * 100 →
      get_budget_status spent limit = ("Over", "red")) ∧
    get_budget_status 60 100 = ("Warning", "yellow") ∧
    get_budget_status 150 100 = ("Over", "red") := by
  refine ⟨?_, ?_, ?_, ?_, ?_, ?_, ?_⟩
  · intro spent limit h
    unfold get_budget_status
    rw [if_pos h]
  · intro spent limit h h1
    unfold get_budget_status
    rw [if_neg (not_le.mpr h), if_pos h1]
  · intro spent limit h h1 h2
    unfold get_budget_status
    rw [if_neg (not_le.mpr h), if_neg (not_le.mpr h1), if_pos h2]
  · intro spent limit h h1 h2
    unfold get_budget_status
    rw [if_neg (not_le.mpr h), if_neg (by linarith), if_neg (not_le.mpr h1),
      if_pos h2]
  · intro spent limit h h1
    unfold get_budget_status
    rw [if_neg (not_le.mpr h), if_neg (by linarith), if_neg (by linarith),
      if_neg (not_le.mpr h1)]
  · unfold get_budget_status
    rw [if_neg (by norm_num), if_neg (by norm_num), if_pos (by norm_num)]
  · unfold get_budget_status
    rw [if_neg (by norm_num), if_neg (by norm_num), if_neg (by norm_num),
      if_neg (by norm_num)]

theorem budget_status_bands_witness :
    get_budget_status 10 0 = ("No limit", "gray") ∧
    get_budget_status 30 100 = ("Good", "green") ∧
    get_budget_status 60 100 = ("Warning", "yellow") ∧
    get_budget_status 90 100 = ("High", "orange") ∧
    get_budget_status 150 100 = ("Over", "red") :=
  ⟨budget_status_bands.1 10 0 le_rfl,
   budget_status_bands.2.1 30 100 (by norm_num) (by norm_num),
   budget_status_bands.2.2.1 60 100 (by norm_num) (by norm_num) (by norm_num),
   budget_status_bands.2.2.2.1 90 100 (by norm_num) (by norm_num)
     (by norm_num),
   budget_status_bands.2.2.2.2.1 150 100 (by norm_num) (by norm_num)⟩

/-- C5: calculate_monthly_payment returns 0 on non-positive principal or
years or a negative rate, divides the principal evenly when the derived
monthly rate is exactly zero, and in particular maps (1200, 0, 1) to 100. -/
theorem monthly_payment_guards :
    (∀ (p r : ℚ) (y : ℤ), p ≤ 0 ∨ r < 0 ∨ y ≤ 0 →
      calculate_monthly_payment p r y = 0) ∧
    (∀ (p r : ℚ) (y : ℤ), 0 < p → 0 ≤ r → 0 < y → r / 12 = 0 →
      calculate_monthly_payment p r y = p / ((y * 12 : ℤ) : ℚ)) ∧
    calculate_monthly_payment 1200 0 1 = 100 := by
  refine ⟨?_, ?_, ?_⟩
  · intro p r y h
    unfold calculate_monthly_payment
    rw [if_pos h]
  · intro p r y hp hr hy hz
    unfold calculate_monthly_payment
    rw [if_neg (by push_neg; exact ⟨hp, hr, hy⟩), if_pos hz]
  · unfold calculate_monthly_payment
    rw [if_neg (by norm_num), if_pos (by norm_num)]
    norm_num

theorem monthly_payment_guards_witness :
    calculate_monthly_payment 0 1 5 = 0 ∧
    calculate_monthly_payment 1200 0 1 = 1200 / ((1 * 12 : ℤ) : ℚ) :=
  ⟨monthly_payment_guards.1 0 1 5 (Or.inl le_rfl),
   monthly_payment_guards.2.1 1200 0 1 (by norm_num) le_rfl (by norm_num)
     (by norm_num)⟩

/-- C6: calculate_compound_interest and calculate_emergency_fund_target
return 0 on out-of-domain input rather than failing, and otherwise compute
the rounded compound-interest formula and the expenses-times-months
product. -/
theorem degrade_to_zero :
    (∀ (p r : ℚ) (t f : ℤ), p ≤ 0 ∨ r < 0 ∨ t < 0 →
      calculate_compound_interest p r t f = 0) ∧
    (∀ (p r : ℚ) (t f : ℤ), 0 < f → 0 < p → 0 ≤ r → 0 ≤ t →
      calculate_compound_interest p r t f =
        roundTo2 (p * (1 + r / (f : ℚ)) ^ (f * t))) ∧
    (∀ (m : ℚ) (mo : ℤ), m ≤ 0 ∨ mo ≤ 0 →
      calculate_emergency_fund_target m mo = 0) ∧
    (∀ (m : ℚ) (mo : ℤ), 0 < m → 0 < mo →
      calculate_emergency_fund_target m mo = m * (mo : ℚ)) := by
  refine ⟨?_, ?_, ?_, ?_⟩
  · intro p r t f h
    unfold calculate_compound_interest
    rw [if_pos h]
  · intro p r t f _ hp hr ht
    unfold calculate_compound_interest
    rw [if_neg (by push_neg; exact ⟨hp, hr, ht⟩)]
  · intro m mo h
    unfold calculate_emergency_fund_target
    rw [if_pos h]
  · intro m mo hm hmo
    unfold calculate_emergency_fund_target
    rw [if_neg (by push_neg; exact ⟨hm, hmo⟩)]

theorem degrade_to_zero_witness :
    calculate_compound_interest 0 1 1 12 = 0 ∧
    calculate_compound_interest 100 0 1 1 = roundTo2 (100 * (1 + 0 / (1 : ℚ)) ^ ((1 : ℤ) * 1)) ∧
    calculate_emergency_fund_target 0 6 = 0 ∧
    calculate_emergency_fund_target 500 6 = 500 * ((6 : ℤ) : ℚ) :=
  ⟨degrade_to_zero.1 0 1 1 12 (Or.inl le_rfl),
   degrade_to_zero.2.1 100 0 1 1 (by norm_num) (by norm_num) le_rfl
     (by norm_num),
   degrade_to_zero.2.2.1 0 6 (Or.inl le_rfl),
   degrade_to_zero.2.2.2 500 6 (by norm_num) (by norm_num)⟩

/-- C4: validate_amount strips currency symbols and commas, rejects
unparseable, negative and oversized amounts with the corresponding
messages, accepts everything else with the parsed value, and in particular
accepts the dollar amount 1,200.50 as 1200.5 and rejects -5 as negative. -/
theorem amount_validation :
    (∀ s : List Char, parseFloat (cleanAmount s) = none →
      validate_amount s =
        (false,
          Sum.inr "Invalid amount format. Please enter a valid number.".data)) ∧
    (∀ (s : List Char) (a : ℚ), parseFloat (cleanAmount s) = some a →
      a < 0 →
      validate_amount s = (false, Sum.inr "Amount cannot be negative".data)) ∧
    (∀ (s : List Char) (a : ℚ), parseFloat (cleanAmount s) = some a →
      0 ≤ a → a > 1000000000 →
      validate_amount s = (false, Sum.inr "Amount is too large".data)) ∧
    (∀ (s : List Char) (a : ℚ), parseFloat (cleanAmount s) = some a →
      0 ≤ a → a ≤ 1000000000 →
      validate_amount s = (true, Sum.inl a)) ∧
    validate_amount "$1,200.50".data = (true, Sum.inl (2401 / 2 : ℚ)) ∧
    validate_amount "-5".data =
      (false, Sum.inr "Amount cannot be negative".data) := by
  have hbranch : ∀ (s : List Char) (a : ℚ), parseFloat (cleanAmount s) = some a →
      validate_amount s =
        (if a < 0 then (false, Sum.inr "Amount cannot be negative".data)
        else if a > 1000000000 then
          (false, Sum.inr "Amount is too large".data)
        else (true, Sum.inl a)) := by
    intro s a h
    unfold validate_amount
    rw [h]
  refine ⟨?_, ?_, ?_, ?_, ?_, ?_⟩
  · intro s h
    unfold validate_amount
    rw [h]
  · intro s a h ha
    rw [hbranch s a h, if_pos ha]
  · intro s a h ha hb
    rw [hbranch s a h, if_neg (not_lt.mpr ha), if_pos hb]
  · intro s a h ha hb
    rw [hbranch s a h, if_neg (not_lt.mpr ha), if_neg (not_lt.mpr hb)]
  · have hp : parseFloat (cleanAmount ("$1,200.50".data)) =
        some ((((120050 : ℤ) : ℚ)) / 10 ^ (2 : ℕ) * 10 ^ (0 : ℤ)) := by
      have hparts : parseFloatParts (cleanAmount ("$1,200.50".data)) =
          some (120050, 2, 0) := by decide
      unfold parseFloat
      rw [hparts]
      rfl
    rw [hbranch _ _ hp, if_neg (by norm_num), if_neg (by norm_num)]
    norm_num
  · have hp : parseFloat (cleanAmount ("-5".data)) =
        some ((((-5 : ℤ) : ℚ)) / 10 ^ (0 : ℕ) * 10 ^ (0 : ℤ)) := by
      have hparts : parseFloatParts (cleanAmount ("-5".data)) =
          some (-5, 0, 0) := by decide
      unfold parseFloat
      rw [hparts]
      rfl
    rw [hbranch _ _ hp, if_pos (by norm_num)]

theorem amount_validation_witness :
    validate_amount "$1,200.50".data = (true, Sum.inl (2401 / 2 : ℚ)) ∧
    validate_amount "abc".data =
      (false,
        Sum.inr "Invalid amount format. Please enter a valid number.".data) :=
  ⟨amount_validation.2.2.2.2.1,
   amount_validation.1 "abc".data (by decide)⟩

theorem emojiLoop_eq_find (t : List (List Char × List Char))
    (cl : List Char) :
    emojiLoop t cl =
      (match t.find? (fun p => isSubstrOf p.1 cl) with
      | some p => p.2
      | none => "📋".data) := by
  induction t with
  | nil => rfl
  | cons p rest ih =>
    obtain ⟨k, e⟩ := p
    by_cases h : isSubstrOf k cl
    · simp [emojiLoop, List.find?_cons, h]
    · simp only [emojiLoop, List.find?_cons]
      rw [if_neg h, ih]
      have hb : isSubstrOf k cl = false := by
        simpa using h
      simp [hb]

/-- C9: the emoji lookup lower-cases the category, scans the 20-entry
table in source order and returns the icon of the first keyword occurring
as a substring, defaulting otherwise; a category containing both the food
and the restaurant keywords gets the earlier food icon. -/
theorem emoji_first_match :
    (∀ category : List Char,
      get_transaction_category_emoji category =
        (match emojiTable.find?
            (fun p => isSubstrOf p.1 (pyLower category)) with
        | some p => p.2
        | none => "📋".data)) ∧
    get_transaction_category_emoji "Restaurant Food".data = "🍔".data ∧
    get_transaction_category_emoji "xyz".data = "📋".data := by
  refine ⟨?_, ?_, ?_⟩
  · intro category
    exact emojiLoop_eq_find emojiTable (pyLower category)
  · decide
  · decide

theorem validateDateLoop_eq_findSome
    (fs : List (List Char → Option PyDate)) (s : List Char) :
    validateDateLoop fs s =
      (match List.findSome? (fun f => f s) fs with
      | none => (false, Sum.inr "Invalid date format. Use YYYY-MM-DD".data)
      | some d => dateRangeResult d) := by
  induction fs with
  | nil => rfl
  | cons f fs ih =>
    simp only [validateDateLoop, List.findSome?]
    cases f s with
    | none => exact ih
    | some d => rfl

/-- C2: validate_date resolves to the first of the four formats (dash and
slash year-first, then dash and slash day-first) whose strptime parse
succeeds and then range-checks the parsed date against 1900-01-01 and
2100-12-31; the ambiguous 01-02-2023 parses day-first to 1 February 2023,
a string no format parses yields the standard format error, and the empty
string is rejected. -/
theorem date_validation :
    (∀ s : List Char, validate_date s =
      (if s.isEmpty then (false, Sum.inr "Date cannot be empty".data)
      else
        match List.findSome? (fun f => f s) dateFormats with
        | none => (false, Sum.inr "Invalid date format. Use YYYY-MM-DD".data)
        | some d => dateRangeResult d)) ∧
    (∀ (s : List Char) (d : PyDate),
      List.findSome? (fun f => f s) dateFormats = some d →
      dateLt d minDate = true →
      validate_date s = (false, Sum.inr "Date is too far in the past".data)) ∧
    (∀ (s : List Char) (d : PyDate),
      List.findSome? (fun f => f s) dateFormats = some d →
      dateLt maxDate d = true →
      validate_date s =
        (false, Sum.inr "Date is too far in the future".data)) ∧
    validate_date "01-02-2023".data = (true, Sum.inl ⟨2023, 2, 1⟩) ∧
    validate_date "2023-13-01".data =
      (false, Sum.inr "Invalid date format. Use YYYY-MM-DD".data) ∧
    validate_date "".data = (false, Sum.inr "Date cannot be empty".data) := by
  have hmain : ∀ s : List Char, validate_date s =
      (if s.isEmpty then (false, Sum.inr "Date cannot be empty".data)
      else
        match List.findSome? (fun f => f s) dateFormats with
        | none => (false, Sum.inr "Invalid date format. Use YYYY-MM-DD".data)
        | some d => dateRangeResult d) := by
    intro s
    unfold validate_date
    by_cases h : s.isEmpty
    · rw [if_pos h, if_pos h]
    · rw [if_neg h, if_neg h, validateDateLoop_eq_findSome]
  have hne : ∀ (s : List Char) (d : PyDate),
      List.findSome? (fun f => f s) dateFormats = some d →
      s.isEmpty = false := by
    intro s d hfind
    cases s with
    | nil =>
      exfalso
      have hnone :
          List.findSome? (fun f => f ([] : List Char)) dateFormats = none := by
        decide
      rw [hnone] at hfind
      exact Option.noConfusion hfind
    | cons c cs => rfl
  refine ⟨hmain, ?_, ?_, ?_, ?_, ?_⟩
  · intro s d hfind hlt
    rw [hmain s, hne s d hfind]
    simp only [Bool.false_eq_true, if_false, hfind, dateRangeResult,
      hlt, if_true]
  · intro s d hfind hgt
    rw [hmain s, hne s d hfind]
    have hnlt : dateLt d minDate = false := by
      revert hgt
      unfold dateLt minDate maxDate
      simp only [decide_eq_true_eq]
      intro h
      apply decide_eq_false
      omega
    simp only [Bool.false_eq_true, if_false, hfind, dateRangeResult,
      hnlt, hgt, if_true]
  · decide
  · decide
  · decide

theorem date_validation_witness :
    validate_date "1850-01-01".data =
      (false, Sum.inr "Date is too far in the past".data) ∧
    validate_date "2101-01-01".data =
      (false, Sum.inr "Date is too far in the future".data) :=
  ⟨date_validation.2.1 "1850-01-01".data ⟨1850, 1, 1⟩ (by decide) (by decide),
   date_validation.2.2.1 "2101-01-01".data ⟨2101, 1, 1⟩ (by decide)
     (by decide)⟩

theorem wfInl {α : Type} (v : α) :
    resultWellFormed ((true, Sum.inl v) : Bool × (α ⊕ List Char)) :=
  Or.inl ⟨rfl, v, rfl⟩

theorem wfInr {α : Type} (m : List Char) :
    resultWellFormed ((false, Sum.inr m) : Bool × (α ⊕ List Char)) :=
  Or.inr ⟨rfl, m, rfl⟩

theorem wf_validate_amount (s : List Char) :
    resultWellFormed (validate_amount s) := by
  unfold validate_amount
  cases parseFloat (cleanAmount s) with
  | none => exact wfInr _
  | some a =>
    dsimp only
    by_cases h1 : a < 0
    · rw [if_pos h1]
      exact wfInr _
    · rw [if_neg h1]
      by_cases h2 : a > 1000000000
      · rw [if_pos h2]
        exact wfInr _
      · rw [if_neg h2]
        exact wfInl _

theorem wf_validate_email (s : List Char) :
    resultWellFormed (validate_email s) := by
  unfold validate_email
  split_ifs <;> first | exact wfInl _ | exact wfInr _

theorem wf_validate_category (s : List Char) :
    resultWellFormed (validate_category s) := by
  unfold validate_category
  split_ifs <;> first | exact wfInl _ | exact wfInr _

theorem wf_validate_month (s : List Char) :
    resultWellFormed (validate_month s) := by
  unfold validate_month
  split_ifs <;> first | exact wfInl _ | exact wfInr _

theorem wf_validate_name (s : List Char) :
    resultWellFormed (validate_name s) := by
  unfold validate_name
  split_ifs <;> first | exact wfInl _ | exact wfInr _

theorem wf_validate_description (s : List Char) :
    resultWellFormed (validate_description s) := by
  unfold validate_description
  split_ifs <;> first | exact wfInl _ | exact wfInr _

theorem wf_validate_phone_number (s : List Char) :
    resultWellFormed (validate_phone_number s) := by
  unfold validate_phone_number
  split_ifs <;> first | exact wfInl _ | exact wfInr _

theorem wf_validate_hex_color (s : List Char) :
    resultWellFormed (validate_hex_color s) := by
  unfold validate_hex_color
  split_ifs <;> first | exact wfInl _ | exact wfInr _

theorem wf_dateRangeResult (d : PyDate) :
    resultWellFormed (dateRangeResult d) := by
  unfold dateRangeResult
  split_ifs <;> first | exact wfInl _ | exact wfInr _

theorem wf_validateDateLoop (fs : List (List Char → Option PyDate))
    (s : List Char) : resultWellFormed (validateDateLoop fs s) := by
  induction fs with
  | nil => exact wfInr _
  | cons f fs ih =>
    simp only [validateDateLoop]
    cases f s with
    | none => exact ih
    | some d => exact wf_dateRangeResult d

theorem wf_validate_date (s : List Char) :
    resultWellFormed (validate_date s) := by
  unfold validate_date
  split_ifs
  · exact wfInr _
  · exact wf_validateDateLoop _ _

/-- C7: every validator, on every input string, returns a well-formed
flag-payload pair — flag true together with a normalized value in the
left summand, or flag false together with an error-message string in the
right summand.  The validators are total Lean functions, reflecting that
no exception escapes them; failure is signalled only through the flag. -/
theorem validators_never_raise :
    ∀ s : List Char,
      resultWellFormed (validate_amount s) ∧
      resultWellFormed (validate_email s) ∧
      resultWellFormed (validate_category s) ∧
      resultWellFormed (validate_date s) ∧
      resultWellFormed (validate_month s) ∧
      resultWellFormed (validate_name s) ∧
      resultWellFormed (validate_description s) ∧
      resultWellFormed (validate_phone_number s) ∧
      resultWellFormed (validate_hex_color s) :=
  fun s =>
    ⟨wf_validate_amount s, wf_validate_email s, wf_validate_category s,
     wf_validate_date s, wf_validate_month s, wf_validate_name s,
     wf_validate_description s, wf_validate_phone_number s,
     wf_validate_hex_color s⟩

/-! ### Lemmas about str.title and str.strip (C8) -/
theorem isBadCategoryChar_toLower (c : Char) :
    isBadCategoryChar (Char.toLower c) = isBadCategoryChar c := by
  unfold isBadCategoryChar
  rw [decide_eq_decide, toLower_toNat]
  split_ifs <;> omega

theorem isBadCategoryChar_toUpper (c : Char) :
    isBadCategoryChar (Char.toUpper c) = isBadCategoryChar c := by
  unfold isBadCategoryChar
  rw [decide_eq_decide, toUpper_toNat]
  split_ifs <;> omega

theorem pyTitleGo_length_ascii :
    ∀ (b : Bool) (s : List Char), (∀ x ∈ s, x.toNat ≤ 127) →
      (pyTitleGo b s).length = s.length := by
  intro b s
  induction s generalizing b with
  | nil => intro _; cases b <;> rfl
  | cons c cs ih =>
    intro h
    have hc : c.toNat ≤ 127 := h c (List.mem_cons_self c cs)
    have hcs : ∀ x ∈ cs, x.toNat ≤ 127 :=
      fun x hx => h x (List.mem_cons_of_mem c hx)
    cases b with
    | false =>
      simp only [pyTitleGo, titleMapChar_ascii hc, List.singleton_append,
        List.length_cons]
      rw [ih (isCased c) hcs]
    | true =>
      simp only [pyTitleGo, lowerMapChar, List.singleton_append,
        List.length_cons]
      rw [ih (isCased c) hcs]

theorem pyTitleGo_idem_ascii :
    ∀ (b : Bool) (s : List Char), (∀ x ∈ s, x.toNat ≤ 127) →
      pyTitleGo b (pyTitleGo b s) = pyTitleGo b s := by
  intro b s
  induction s generalizing b with
  | nil => intro _; cases b <;> rfl
  | cons c cs ih =>
    intro h
    have hc : c.toNat ≤ 127 := h c (List.mem_cons_self c cs)
    have hcs : ∀ x ∈ cs, x.toNat ≤ 127 :=
      fun x hx => h x (List.mem_cons_of_mem c hx)
    cases b with
    | false =>
      simp only [pyTitleGo, titleMapChar_ascii hc, List.singleton_append,
        List.append_eq, List.nil_append]
      simp only [pyTitleGo, titleMapChar_ascii (ascii_toUpper hc),
        toUpper_idem, List.singleton_append, isCased_toUpper_ascii hc,
        List.append_eq, List.nil_append]
      rw [ih (isCased c) hcs]
    | true =>
      simp only [pyTitleGo, lowerMapChar, List.singleton_append,
        List.append_eq, List.nil_append]
      simp only [pyTitleGo, lowerMapChar, toLower_idem,
        List.singleton_append, isCased_toLower_ascii hc,
        List.append_eq, List.nil_append]
      rw [ih (isCased c) hcs]

theorem pyTitle_idem_ascii {s : List Char} (h : ∀ x ∈ s, x.toNat ≤ 127) :
    pyTitle (pyTitle s) = pyTitle s :=
  pyTitleGo_idem_ascii false s h

theorem pyTitleGo_map_isPySpace_ascii :
    ∀ (b : Bool) (s : List Char), (∀ x ∈ s, x.toNat ≤ 127) →
      (pyTitleGo b s).map isPySpace = s.map isPySpace := by
  intro b s
  induction s generalizing b with
  | nil => intro _; cases b <;> rfl
  | cons c cs ih =>
    intro h
    have hc : c.toNat ≤ 127 := h c (List.mem_cons_self c cs)
    have hcs : ∀ x ∈ cs, x.toNat ≤ 127 :=
      fun x hx => h x (List.mem_cons_of_mem c hx)
    cases b with
    | false =>
      simp only [pyTitleGo, titleMapChar_ascii hc, List.singleton_append,
        List.map_cons, isPySpace_toUpper]
      rw [ih (isCased c) hcs]
    | true =>
      simp only [pyTitleGo, lowerMapChar, List.singleton_append,
        List.map_cons, isPySpace_toLower]
      rw [ih (isCased c) hcs]

theorem pyTitleGo_any_bad_ascii :
    ∀ (b : Bool) (s : List Char), (∀ x ∈ s, x.toNat ≤ 127) →
      (pyTitleGo b s).any isBadCategoryChar = s.any isBadCategoryChar := by
  intro b s
  induction s generalizing b with
  | nil => intro _; cases b <;> rfl
  | cons c cs ih =>
    intro h
    have hc : c.toNat ≤ 127 := h c (List.mem_cons_self c cs)
    have hcs : ∀ x ∈ cs, x.toNat ≤ 127 :=
      fun x hx => h x (List.mem_cons_of_mem c hx)
    cases b with
    | false =>
      simp only [pyTitleGo, titleMapChar_ascii hc, List.singleton_append,
        List.any_cons, isBadCategoryChar_toUpper]
      rw [ih (isCased c) hcs]
    | true =>
      simp only [pyTitleGo, lowerMapChar, List.singleton_append,
        List.any_cons, isBadCategoryChar_toLower]
      rw [ih (isCased c) hcs]

theorem pyTitleGo_ascii_closed :
    ∀ (b : Bool) (s : List Char), (∀ x ∈ s, x.toNat ≤ 127) →
      ∀ x ∈ pyTitleGo b s, x.toNat ≤ 127 := by
  intro b s
  induction s generalizing b with
  | nil =>
    intro _ x hx
    cases b <;> simp [pyTitleGo] at hx
  | cons c cs ih =>
    intro h x hx
    have hc : c.toNat ≤ 127 := h c (List.mem_cons_self c cs)
    have hcs : ∀ y ∈ cs, y.toNat ≤ 127 :=
      fun y hy => h y (List.mem_cons_of_mem c hy)
    cases b with
    | false =>
      simp only [pyTitleGo, titleMapChar_ascii hc, List.singleton_append,
        List.mem_cons] at hx
      cases hx with
      | inl hx => rw [hx]; exact ascii_toUpper hc
      | inr hx => exact ih (isCased c) hcs x hx
    | true =>
      simp only [pyTitleGo, lowerMapChar, List.singleton_append,
        List.mem_cons] at hx
      cases hx with
      | inl hx => rw [hx]; exact ascii_toLower hc
      | inr hx => exact ih (isCased c) hcs x hx

theorem dropWhile_eq_self_of_head {α : Type} {p : α → Bool} {l : List α}
    (h : ∀ a ∈ l.head?, p a = false) : l.dropWhile p = l := by
  cases l with
  | nil => rfl
  | cons a t =>
    have ha : p a = false := h a rfl
    simp [List.dropWhile_cons, ha]

theorem head_false_of_dropWhile_eq {α : Type} {p : α → Bool} {l : List α}
    (h : l.dropWhile p = l) : ∀ a ∈ l.head?, p a = false := by
  intro a ha
  cases l with
  | nil => simp at ha
  | cons b t =>
    simp only [List.head?_cons, Option.mem_def, Option.some.injEq] at ha
    subst ha
    by_contra hp
    rw [Bool.not_eq_false] at hp
    rw [List.dropWhile_cons, if_pos hp] at h
    have hle : (List.dropWhile p t).length ≤ t.length :=
      (List.dropWhile_suffix p).length_le
    rw [h] at hle
    simp at hle

theorem rdropWhile_eq_self_of_last {α : Type} {p : α → Bool} {l : List α}
    (h : ∀ a ∈ l.getLast?, p a = false) : List.rdropWhile p l = l := by
  unfold List.rdropWhile
  have hh : List.dropWhile p l.reverse = l.reverse := by
    apply dropWhile_eq_self_of_head
    intro a ha
    apply h
    rwa [List.head?_reverse] at ha
  rw [hh, List.reverse_reverse]

theorem last_false_of_rdropWhile_eq {α : Type} {p : α → Bool} {l : List α}
    (h : List.rdropWhile p l = l) : ∀ a ∈ l.getLast?, p a = false := by
  intro a ha
  have h2 : List.dropWhile p l.reverse = l.reverse := by
    have h3 := congrArg List.reverse h
    unfold List.rdropWhile at h3
    rwa [List.reverse_reverse] at h3
  exact head_false_of_dropWhile_eq h2 a (by rwa [List.head?_reverse])

theorem strip_parts {s : List Char} (h : pyStrip s = s) :
    List.dropWhile isPySpace s = s ∧ List.rdropWhile isPySpace s = s := by
  have h' := h
  unfold pyStrip at h'
  have hsuf : List.dropWhile isPySpace s <:+ s := List.dropWhile_suffix isPySpace
  have hpre := List.rdropWhile_prefix isPySpace (List.dropWhile isPySpace s)
  have h1 : (List.dropWhile isPySpace s).length ≤ s.length := hsuf.length_le
  have h2 :
      (List.rdropWhile isPySpace (List.dropWhile isPySpace s)).length ≤
        (List.dropWhile isPySpace s).length := hpre.length_le
  have h3 :
      (List.rdropWhile isPySpace (List.dropWhile isPySpace s)).length =
        s.length := by rw [h']
  have hdw : List.dropWhile isPySpace s = s := hsuf.eq_of_length (by omega)
  refine ⟨hdw, ?_⟩
  rwa [hdw] at h'

theorem pyStrip_idem (s : List Char) : pyStrip (pyStrip s) = pyStrip s := by
  have hr : List.rdropWhile isPySpace (pyStrip s) = pyStrip s :=
    List.rdropWhile_idempotent isPySpace _
  have hd : List.dropWhile isPySpace (pyStrip s) = pyStrip s := by
    apply dropWhile_eq_self_of_head
    intro a ha
    have hpre : pyStrip s <+: List.dropWhile isPySpace s :=
      List.rdropWhile_prefix isPySpace _
    obtain ⟨t, ht⟩ := hpre
    cases hps : pyStrip s with
    | nil =>
      rw [hps] at ha
      simp at ha
    | cons b bs =>
      rw [hps] at ha
      simp only [List.head?_cons, Option.mem_def, Option.some.injEq] at ha
      subst ha
      rw [hps] at ht
      have hx : List.dropWhile isPySpace s = b :: (bs ++ t) := by
        rw [← ht]
        rfl
      have hy := List.head?_dropWhile_not isPySpace s
      rw [hx] at hy
      simpa using hy
  show List.rdropWhile isPySpace (List.dropWhile isPySpace (pyStrip s)) =
    pyStrip s
  rw [hd, hr]

theorem pred_head_transfer {α : Type} {p : α → Bool} {l1 l2 : List α}
    (hmask : l1.map p = l2.map p) (h2 : ∀ a ∈ l2.head?, p a = false) :
    ∀ a ∈ l1.head?, p a = false := by
  intro a ha
  have hh := congrArg List.head? hmask
  rw [List.head?_map, List.head?_map] at hh
  cases hc1 : l1.head? with
  | none =>
    rw [hc1] at ha
    simp at ha
  | some b =>
    rw [hc1] at ha hh
    simp only [Option.mem_def, Option.some.injEq] at ha
    subst ha
    cases hc2 : l2.head? with
    | none =>
      rw [hc2] at hh
      simp at hh
    | some c =>
      rw [hc2] at hh
      simp only [Option.map_some'] at hh
      have hpc := h2 c (by rw [hc2]; rfl)
      have hac : p b = p c := by
        injection hh
      rw [hac]
      exact hpc

theorem pred_last_transfer {α : Type} {p : α → Bool} {l1 l2 : List α}
    (hmask : l1.map p = l2.map p) (h2 : ∀ a ∈ l2.getLast?, p a = false) :
    ∀ a ∈ l1.getLast?, p a = false := by
  intro a ha
  have hh := congrArg List.getLast? hmask
  rw [List.getLast?_map, List.getLast?_map] at hh
  cases hc1 : l1.getLast? with
  | none =>
    rw [hc1] at ha
    simp at ha
  | some b =>
    rw [hc1] at ha hh
    simp only [Option.mem_def, Option.some.injEq] at ha
    subst ha
    cases hc2 : l2.getLast? with
    | none =>
      rw [hc2] at hh
      simp at hh
    | some c =>
      rw [hc2] at hh
      simp only [Option.map_some'] at hh
      have hpc := h2 c (by rw [hc2]; rfl)
      have hac : p b = p c := by
        injection hh
      rw [hac]
      exact hpc

theorem mem_pyStrip_sub {s : List Char} : ∀ c ∈ pyStrip s, c ∈ s := by
  intro c hc
  have h1 : pyStrip s <+: List.dropWhile isPySpace s :=
    List.rdropWhile_prefix isPySpace _
  have h2 : List.dropWhile isPySpace s <:+ s :=
    List.dropWhile_suffix isPySpace
  exact h2.sublist.subset (h1.sublist.subset hc)

theorem pyStrip_pyTitle_of_stripped {w : List Char} (hw : pyStrip w = w)
    (ha : ∀ x ∈ w, x.toNat ≤ 127) :
    pyStrip (pyTitle w) = pyTitle w := by
  obtain ⟨hdw, hrw⟩ := strip_parts hw
  have hmask := pyTitleGo_map_isPySpace_ascii false w ha
  have hd : List.dropWhile isPySpace (pyTitle w) = pyTitle w :=
    dropWhile_eq_self_of_head
      (pred_head_transfer hmask (head_false_of_dropWhile_eq hdw))
  have hr : List.rdropWhile isPySpace (pyTitle w) = pyTitle w :=
    rdropWhile_eq_self_of_last
      (pred_last_transfer hmask (last_false_of_rdropWhile_eq hrw))
  show List.rdropWhile isPySpace (List.dropWhile isPySpace (pyTitle w)) =
    pyTitle w
  rw [hd, hr]

set_option maxRecDepth 8192 in
/-- C8 counterexample: category normalization is not idempotent for every
string.  One hundred sharp-s characters pass all checks and title-case to
the 101-character string Ss followed by 99 sharp-s characters, which the
re-validation rejects as too long. -/
theorem category_idempotent_counterexample :
    ¬ (∀ s v : List Char, validate_category s = (true, Sum.inl v) →
        validate_category v = (true, Sum.inl v)) := by
  intro h
  have h1 := h (List.replicate 100 'ß')
    ('S' :: 's' :: List.replicate 99 'ß') (by decide)
  have h2 : validate_category ('S' :: 's' :: List.replicate 99 'ß') =
      (false,
        Sum.inr "Category name is too long (max 100 characters)".data) := by
    decide
  rw [h2] at h1
  simp at h1

/-- C8 amended: for ASCII input — where the per-character title mapping
never expands a character, unlike the sharp s of the counterexample — a
category value accepted and normalized by validate_category is accepted
unchanged when re-validated, and the two round-trip examples of the
specification hold. -/
theorem category_idempotent_ascii :
    (∀ s v : List Char, (∀ c ∈ s, c.toNat ≤ 127) →
      validate_category s = (true, Sum.inl v) →
      validate_category v = (true, Sum.inl v)) ∧
    validate_category "  food  ".data = (true, Sum.inl "Food".data) ∧
    validate_category "Food".data = (true, Sum.inl "Food".data) := by
  refine ⟨?_, by decide, by decide⟩
  intro s v hascii h
  have hwascii : ∀ c ∈ pyStrip s, c.toNat ≤ 127 :=
    fun c hc => hascii c (mem_pyStrip_sub c hc)
  unfold validate_category at h
  by_cases h1 : (pyStrip s).isEmpty
  · rw [if_pos h1] at h
    simp at h
  rw [if_neg h1] at h
  by_cases h2 : 100 < (pyStrip s).length
  · rw [if_pos h2] at h
    simp at h
  rw [if_neg h2] at h
  by_cases h3 : (pyStrip s).any isBadCategoryChar
  · rw [if_pos h3] at h
    simp at h
  rw [if_neg h3] at h
  have hv : v = pyTitle (pyStrip s) := by
    simp only [Prod.mk.injEq, Sum.inl.injEq, true_and] at h
    exact h.symm
  subst hv
  have hsv : pyStrip (pyTitle (pyStrip s)) = pyTitle (pyStrip s) :=
    pyStrip_pyTitle_of_stripped (pyStrip_idem s) hwascii
  have hlen : (pyTitle (pyStrip s)).length = (pyStrip s).length :=
    pyTitleGo_length_ascii false _ hwascii
  unfold validate_category
  rw [hsv]
  rw [if_neg (by
    rw [List.isEmpty_iff_length_eq_zero, hlen]
    rw [List.isEmpty_iff_length_eq_zero] at h1
    exact h1)]
  rw [if_neg (by
    rw [hlen]
    exact h2)]
  rw [if_neg (by
    rw [show (pyTitle (pyStrip s)).any isBadCategoryChar =
        (pyStrip s).any isBadCategoryChar from
      pyTitleGo_any_bad_ascii false _ hwascii]
    exact h3)]
  rw [pyTitle_idem_ascii hwascii]

theorem category_idempotent_ascii_witness :
    validate_category "Food".data = (true, Sum.inl "Food".data) :=
  category_idempotent_ascii.1 "  food  ".data "Food".data (by decide)
    (by decide)

/-! ### Tag parsing invariants (C10) -/
theorem pyLower_idem (l : List Char) : pyLower (pyLower l) = pyLower l := by
  unfold pyLower
  rw [List.map_map]
  apply List.map_congr_left
  intro a _
  exact toLower_idem a

/-- C10: every tag produced by parse_tag_string is nonempty, lower-case
invariant, at most 50 characters long and drawn from letters, digits,
hyphen and underscore; the result has no duplicates; the empty input
yields the empty list. -/
theorem tag_invariants :
    (∀ s : List Char,
      (∀ t ∈ parse_tag_string s,
        t ≠ [] ∧ pyLower t = t ∧ t.length ≤ 50 ∧ t.all isTagChar = true) ∧
      (parse_tag_string s).Nodup) ∧
    parse_tag_string [] = [] := by
  constructor
  · intro s
    constructor
    · intro t ht
      unfold parse_tag_string at ht
      by_cases hs : s.isEmpty
      · rw [if_pos hs] at ht
        simp at ht
      rw [if_neg hs] at ht
      rw [List.mem_filter] at ht
      obtain ⟨hmem, hpred⟩ := ht
      simp only [Bool.and_eq_true, decide_eq_true_eq,
        Bool.not_eq_true'] at hpred
      obtain ⟨⟨hlen, hne⟩, hall⟩ := hpred
      have hmem2 :
          t ∈ ((s.splitOn ',').map (fun u => pyLower (pyStrip u))) := by
        have hd := List.mem_dedup.mp hmem
        exact (List.mem_filter.mp hd).1
      obtain ⟨u, _, hu⟩ := List.mem_map.mp hmem2
      refine ⟨?_, ?_, hlen, hall⟩
      · intro hnil
        rw [hnil] at hne
        simp at hne
      · rw [← hu]
        exact pyLower_idem _
    · unfold parse_tag_string
      by_cases hs : s.isEmpty
      · rw [if_pos hs]
        exact List.nodup_nil
      rw [if_neg hs]
      exact (List.nodup_dedup _).filter _
  · rfl

theorem tag_invariants_witness :
    "ab".data ≠ [] ∧ pyLower "ab".data = "ab".data ∧
      ("ab".data).length ≤ 50 ∧ ("ab".data).all isTagChar = true :=
  (tag_invariants.1 "ab, AB, x!".data).1 "ab".data (by decide)

end FinanceHelpers
